import Mathlib

/-!
Shallow embedding of the PI Web API event-frame extraction engine of this
repository: `src/fetch_eventframes.py` (current variant) and
`src/old_fetch_eventframe.py` (legacy variant).

Modelling conventions:
* Machine-level details of the HTTP layer are abstracted into a `Network`
  oracle: `listFrames` is keyed by the two interval endpoints (the Python
  code builds a URL from the second-truncated UTC rendering of those
  endpoints), `attrDirectory` by the attribute-directory link and
  `valueFetch` by the value link.  A `none` answer of the oracle stands for
  any exception raised by `session.get` / `raise_for_status` / `json()`
  (the Python code catches them all in one `except` per call site).
* External libraries are oracle components of `Env`: `parse_date`
  (dateutil), `strftime` (time formatting), `tzdb` (the `ZoneInfo`
  database, abstracted to a fixed UTC offset per zone name: no claim
  depends on DST transitions), `now` (`datetime.now`), and the two
  credential environment variables.
* Python `datetime` values are integer microseconds since the epoch
  (`instant`) together with an optional `tzOffset` (seconds east of UTC;
  `none` models a naive datetime).  CPython `timedelta` true division by 2
  rounds the result to the nearest microsecond, ties to even; `pyHalf`
  models that rounding exactly.
* Thread pools (`ThreadPoolExecutor`, `as_completed`) are determinised to
  submission order; the claims quantify over contents, not arrival order.
* Python dicts are insertion-ordered association lists with last-write-wins
  update; Python sets of strings are `Finset String`.
* A raised Python exception is an `Except.error`; functions whose source
  swallows every exception are total.
-/

namespace PiEtl

/-- JSON-shaped values as decoded by `response.json()` and stored in
records.  Numbers are restricted to integers: no claim depends on floating
point. -/
inductive JVal where
  | jnull : JVal
  | jbool : Bool → JVal
  | jnum : Int → JVal
  | jstr : String → JVal
  | jarr : List JVal → JVal
  | jobj : List (String × JVal) → JVal

mutual

/-- Model of `json.dumps` on decoded JSON values (default separators). -/
def dumps : JVal → String
  | JVal.jnull => "null"
  | JVal.jbool true => "true"
  | JVal.jbool false => "false"
  | JVal.jnum n => toString n
  | JVal.jstr s => "\"" ++ s ++ "\""
  | JVal.jarr xs => "[" ++ dumpsList xs ++ "]"
  | JVal.jobj fs => "\x7b" ++ dumpsFields fs ++ "\x7d"

/-- Comma-joined `json.dumps` of the elements of a JSON array. -/
def dumpsList : List JVal → String
  | [] => ""
  | [x] => dumps x
  | x :: y :: xs => dumps x ++ ", " ++ dumpsList (y :: xs)

/-- Comma-joined `json.dumps` of the members of a JSON object. -/
def dumpsFields : List (String × JVal) → String
  | [] => ""
  | [(k, v)] => "\"" ++ k ++ "\": " ++ dumps v
  | (k, v) :: f :: fs => "\"" ++ k ++ "\": " ++ dumps v ++ ", " ++ dumpsFields (f :: fs)

end

/-- Python exceptions raised by the embedded code paths. -/
inductive PyError where
  | ValueError : String → PyError
  | RuntimeError : String → PyError
  | KeyError : PyError
deriving DecidableEq

/-- Model of a Python `datetime`: an optional UTC offset in seconds
(`none` = naive) and the instant in integer microseconds. -/
structure PyDatetime where
  tzOffset : Option Int
  instant : Int
deriving DecidableEq

/-- A `datetime | str` argument of `fetch_eventframes`. -/
inductive TimeArg where
  | str : String → TimeArg
  | dt : PyDatetime → TimeArg
deriving DecidableEq

/-- One entry of `SITES_PARAM` (`config.json`): the per-site registry
record.  `PIWEBAPI_URL`, `TEMPLATE_NAME` and `ASSET_DATABASE_WEBID` only
feed the request URL, which is absorbed into the `Network` oracle. -/
structure SiteConfig where
  TIMEZONE : String
  AUTH : String
  PIWEBAPI_URL : String
  TEMPLATE_NAME : String
  ASSET_DATABASE_WEBID : String
deriving DecidableEq

/-- The loaded configuration: `SITES_PARAM`, a site-keyed registry. -/
structure Config where
  sites : String → Option SiteConfig

/-- Ambient libraries and process environment. -/
structure Env where
  parse_date : String → Option PyDatetime
  strftime : PyDatetime → String
  tzdb : String → Option Int
  now : PyDatetime
  piwebapi_user : Option String
  piwebapi_pass : Option String

/-- Result of `get_auth_for_site`. -/
inductive Auth where
  | basic : String → String → Auth
  | negotiate : Auth
deriving DecidableEq

/-- An event-frame descriptor as decoded from the remote API response.
Fields model `ef.get(...)` on the API keys (`Name`, `StartTime`,
`EndTime`, `TemplateName`, `WebId`, `Id`); `attributesLink` models
the `Attributes` member of the nested `Links` object of the frame. -/
structure Frame where
  Name : Option String
  StartTime : Option String
  EndTime : Option String
  TemplateName : Option String
  WebId : Option String
  Id : Option String
  attributesLink : Option String
deriving DecidableEq

/-- An attribute descriptor from the attribute directory: `Name`,
`Links.Value` and the inline `Value` member (`jnull` when absent). -/
structure Attr where
  Name : Option String
  valueLink : Option String
  Value : JVal

/-- The network oracle (see the module comment). -/
structure Network where
  listFrames : Int → Int → Option (List Frame)
  attrDirectory : String → Option (List Attr)
  valueFetch : String → Option JVal

/-- A Python dict used as a flat output record: insertion-ordered
association list with unique keys. -/
abbrev Record := List (String × JVal)

/-- Python coalescing of an optional string to a string: `None` and the
empty string are falsy and coalesce to the empty string. -/
def pyOrStr : Option String → String
  | none => ""
  | some s => s

/-- Whether the first list is an initial segment of the second. -/
def charListPre : List Char → List Char → Bool
  | [], _ => true
  | _ :: _, [] => false
  | c :: cs, d :: ds => c = d && charListPre cs ds

/-- Python `s.startswith(pre)`. -/
def pyStartswith (s pre : String) : Bool := charListPre pre.data s.data

/-- Python truthiness of an optional string: `None` and the empty string
are falsy. -/
def pyFalsyOptStr : Option String → Bool
  | none => true
  | some s => s = ""

/-- Python truthiness of an attribute name (`if name:`). -/
def pyTruthyName : Option String → Bool
  | none => false
  | some s => s != ""

/-- Dict lookup (`d.get(k)` restricted to present/absent). -/
def rlookup (k : String) : Record → Option JVal
  | [] => none
  | (k2, v) :: rest => if k2 = k then some v else rlookup k rest

/-- Dict assignment `d[k] = v`: overwrite in place, else append. -/
def dictInsert (d : Record) (k : String) (v : JVal) : Record :=
  if (rlookup k d).isSome then
    d.map (fun p => if p.1 = k then (k, v) else p)
  else
    d ++ [(k, v)]

/-- Dict update `d.update(d2)` (insertion order of `d2` preserved). -/
def dictUpdate (d : Record) (d2 : Record) : Record :=
  d2.foldl (fun acc p => dictInsert acc p.1 p.2) d

/-- The key list of a record, in insertion order. -/
def rkeys (d : Record) : List String := d.map Prod.fst

/-- Wrap an optional string as a record value (`None` becomes JSON null). -/
def optJ : Option String → JVal
  | none => JVal.jnull
  | some s => JVal.jstr s

/-- The page cap `CHUNK_SIZE` of `fetch_eventframes.py`. -/
def CHUNK_SIZE : Nat := 1000

/-- Embedding of `to_site_local` (src/fetch_eventframes.py lines 69-97):
reject naive datetimes, reject non-zero UTC offsets, look the site up in
`SITES_PARAM` (a missing site raises `KeyError`), then convert via
`ZoneInfo`; a missing zone raises `RuntimeError`. -/
def to_site_local (cfg : Config) (env : Env) (utc_dt : PyDatetime) (site : String) :
    Except PyError PyDatetime :=
  match utc_dt.tzOffset with
  | none => Except.error (PyError.ValueError
      "utc_dt is naive; pass an aware UTC datetime (tzinfo=timezone.utc).")
  | some off =>
    if off ≠ 0 then
      Except.error (PyError.ValueError
        "utc_dt is not in UTC; make sure to pass a UTC datetime.")
    else
      match cfg.sites site with
      | none => Except.error PyError.KeyError
      | some sc =>
        match env.tzdb sc.TIMEZONE with
        | none => Except.error (PyError.RuntimeError
            "Time zone data not found. Install tzdata: pip install tzdata")
        | some zoneOff => Except.ok ⟨some zoneOff, utc_dt.instant⟩

/-- Embedding of `get_auth_for_site` (lines 103-122). -/
def get_auth_for_site (env : Env) (cfg : Config) (site : String) :
    Except PyError Auth :=
  match cfg.sites site with
  | none => Except.error PyError.KeyError
  | some sc =>
    if sc.AUTH = "BASIC" then
      if pyFalsyOptStr env.piwebapi_user || pyFalsyOptStr env.piwebapi_pass then
        Except.error (PyError.ValueError
          "BASIC auth requires PIWEBAPI_USER and PIWEBAPI_PASS environment variables")
      else
        Except.ok (Auth.basic (env.piwebapi_user.getD "") (env.piwebapi_pass.getD ""))
    else
      Except.ok Auth.negotiate

/-- Embedding of `_convert_to_local_time` (lines 439-449): empty input or
empty site yields the empty string; any exception of `parse_date`,
`to_site_local` or `strftime` is swallowed into the empty string. -/
def convert_to_local_time (env : Env) (cfg : Config)
    (utc_time_str : Option String) (site : String) : String :=
  if pyFalsyOptStr utc_time_str || site = "" then ""
  else
    match env.parse_date (pyOrStr utc_time_str) with
    | none => ""
    | some utc_dt =>
      match to_site_local cfg env utc_dt site with
      | Except.error _ => ""
      | Except.ok local_dt => env.strftime local_dt

/-- The eight core field names of a flat record, in source order. -/
def coreFields : List String :=
  ["Event Frame Name", "Start Time", "Start Time UTC", "End Time",
   "End Time UTC", "Template Name", "WebId", "Id"]

/-- Embedding of `_parse_eventframe_basic_info` (lines 410-437). -/
def parse_eventframe_basic_info (env : Env) (cfg : Config) (ef : Frame)
    (site : String) : Record :=
  [("Event Frame Name", optJ ef.Name),
   ("Start Time", JVal.jstr (convert_to_local_time env cfg ef.StartTime site)),
   ("Start Time UTC", optJ ef.StartTime),
   ("End Time", JVal.jstr (convert_to_local_time env cfg ef.EndTime site)),
   ("End Time UTC", optJ ef.EndTime),
   ("Template Name", optJ ef.TemplateName),
   ("WebId", optJ ef.WebId),
   ("Id", optJ ef.Id)]

/-- Dict member access reading a named member of a decoded JSON object,
defaulting to JSON null when absent. -/
def jget : List (String × JVal) → String → JVal
  | [], _ => JVal.jnull
  | (k, v) :: rest, key => if k = key then v else jget rest key

/-- Serialisation step of an attribute value: dict/list shaped values are
stored as their `json.dumps` string, everything else verbatim. -/
def storeValue : JVal → JVal
  | JVal.jarr xs => JVal.jstr (dumps (JVal.jarr xs))
  | JVal.jobj fs => JVal.jstr (dumps (JVal.jobj fs))
  | v => v

/-- Embedding of `fetch_single_attribute_value` (lines 463-488): follow the
value link when it is truthy (any exception on that path yields
`(name, "")`, including a non-object response body), otherwise use the
inline value. -/
def fetch_single_attribute_value (net : Network) (attr : Attr) :
    Option String × JVal :=
  match attr.valueLink with
  | some link =>
    if link = "" then (attr.Name, storeValue attr.Value)
    else
      match net.valueFetch link with
      | none => (attr.Name, JVal.jstr "")
      | some (JVal.jobj fs) => (attr.Name, storeValue (jget fs "Value"))
      | some _ => (attr.Name, JVal.jstr "")
  | none => (attr.Name, storeValue attr.Value)

/-- One result-collection step of `_fetch_attribute_values_parallel`
(lines 496-502): store the fetched value under its name when the name is
truthy. -/
def favp_step (net : Network) (acc : Record) (attr : Attr) : Record :=
  match fetch_single_attribute_value net attr with
  | (none, _) => acc
  | (some n, v) => if n = "" then acc else dictInsert acc n v

/-- Embedding of `_fetch_attribute_values_parallel` (lines 451-504): fold
the per-attribute results into a dict, skipping falsy names (completion
order determinised to submission order). -/
def fetch_attribute_values_parallel (net : Network) (attr_items : List Attr) :
    Record :=
  attr_items.foldl (favp_step net) []

/-- Embedding of `fetch_attributes` (lines 345-408): build the core record,
then (when the attributes link is truthy) fetch the directory; any failure
there leaves the record core-only with an empty name set. -/
def fetch_attributes (env : Env) (cfg : Config) (net : Network) (ef : Frame)
    (site : String) : Record × Finset String :=
  let ef_data := parse_eventframe_basic_info env cfg ef site
  match ef.attributesLink with
  | none => (ef_data, ∅)
  | some link =>
    if link = "" then (ef_data, ∅)
    else
      match net.attrDirectory link with
      | none => (ef_data, ∅)
      | some attr_items =>
        if attr_items.isEmpty then (ef_data, ∅)
        else
          let ef_attrs := fetch_attribute_values_parallel net attr_items
          (dictUpdate ef_data ef_attrs, (rkeys ef_attrs).toFinset)

/-- Embedding of `_fetch_attributes_parallel` (lines 298-339): one
`fetch_attributes` task per frame, results appended and name sets unioned
(completion order determinised to submission order; the per-future
`except: continue` is unreachable since every task is total here). -/
def fetch_attributes_parallel (env : Env) (cfg : Config) (net : Network)
    (eventframes : List Frame) (site : String) :
    List Record × Finset String :=
  eventframes.foldl
    (fun acc ef =>
      let r := fetch_attributes env cfg net ef site
      (acc.1 ++ [r.1], acc.2 ∪ r.2))
    ([], ∅)

/-- Embedding of `_fetch_eventframe_list` (lines 243-296): query the list
endpoint for the interval; any exception yields the empty list. -/
def fetch_eventframe_list (net : Network) (start stop : PyDatetime) :
    List Frame :=
  match net.listFrames start.instant stop.instant with
  | none => []
  | some items => items

/-- The in-progress filter of `fetch_eventframes.py` (lines 215-218):
keep `ef` iff its `EndTime`, coalesced to the empty string, does not
start with the open-frame sentinel. -/
def keepFrame (ef : Frame) : Bool :=
  !(pyStartswith (pyOrStr ef.EndTime) "9999-12-31")

/-- CPython `timedelta / 2` on a span of `d` microseconds: exact halving
rounded to the nearest microsecond, ties to the even neighbour. -/
def pyHalf (d : Int) : Int :=
  if 2 ∣ d then d / 2
  else if 2 ∣ ((d - 1) / 2) then (d - 1) / 2 else (d - 1) / 2 + 1

/-- Python `mid = start + (end - start) / 2` (line 201): datetime plus
half the timedelta, keeping the tzinfo of `start`. -/
def midTime (start stop : PyDatetime) : PyDatetime :=
  ⟨start.tzOffset, start.instant + pyHalf (stop.instant - start.instant)⟩

/-- The work-stack loop of `fetch_eventframes` (lines 189-236), with an
explicit fuel bound on the number of iterations; `none` means the fuel ran
out with work still pending (the Python loop is unbounded). -/
def fetchLoop (env : Env) (cfg : Config) (net : Network) (site : String) :
    Nat → List (PyDatetime × PyDatetime) → List Record × Finset String →
    Option (List Record × Finset String)
  | _, [], acc => some acc
  | 0, _ :: _, _ => none
  | fuel + 1, (start, stop) :: rest, acc =>
    let eventframes := fetch_eventframe_list net start stop
    if CHUNK_SIZE ≤ eventframes.length then
      fetchLoop env cfg net site fuel
        ((start, midTime start stop) :: (midTime start stop, stop) :: rest) acc
    else if eventframes.isEmpty then
      fetchLoop env cfg net site fuel rest acc
    else
      let filtered := eventframes.filter keepFrame
      if filtered.isEmpty then
        fetchLoop env cfg net site fuel rest acc
      else
        let r := fetch_attributes_parallel env cfg net filtered site
        fetchLoop env cfg net site fuel rest (acc.1 ++ r.1, acc.2 ∪ r.2)

/-- Python truthiness of the `start_time` argument (`datetime` objects are
always truthy; `None` and the empty string are falsy). -/
def pyFalsyTimeArg : Option TimeArg → Bool
  | none => true
  | some (TimeArg.str s) => s = ""
  | some (TimeArg.dt _) => false

/-- Parse a `datetime | str` argument
(`parse_date(x) if isinstance(x, str) else x`); a `parse_date` failure
propagates as `ValueError`. -/
def parseTimeArg (env : Env) : TimeArg → Except PyError PyDatetime
  | TimeArg.str s =>
    match env.parse_date s with
    | none => Except.error (PyError.ValueError "Unknown string format")
    | some d => Except.ok d
  | TimeArg.dt d => Except.ok d

/-- Resolve the optional `end_time` argument: absent means `now`. -/
def parseEnd (env : Env) : Option TimeArg → Except PyError PyDatetime
  | none => Except.ok env.now
  | some a => parseTimeArg env a

/-- Python `x.replace(tzinfo=timezone.utc) if x.tzinfo is None else x`. -/
def ensureAware (d : PyDatetime) : PyDatetime :=
  match d.tzOffset with
  | none => ⟨some 0, d.instant⟩
  | some _ => d

/-- Embedding of `fetch_eventframes` (src/fetch_eventframes.py lines
128-241): guard falsy parameters and unknown sites (returning the normal
empty result), parse and awareness-fix the bounds, resolve authentication
(errors propagate), then run the work-stack loop. -/
def fetch_eventframes (env : Env) (cfg : Config) (net : Network)
    (site : String) (start_time end_time : Option TimeArg) (fuel : Nat) :
    Except PyError (Option (List Record × Finset String)) :=
  if pyFalsyTimeArg start_time || site = "" then
    Except.ok (some ([], ∅))
  else if (cfg.sites site).isNone then
    Except.ok (some ([], ∅))
  else
    match start_time with
    | none => Except.ok (some ([], ∅))
    | some sarg =>
      match parseTimeArg env sarg with
      | Except.error e => Except.error e
      | Except.ok cs0 =>
        match parseEnd env end_time with
        | Except.error e => Except.error e
        | Except.ok ce0 =>
          match get_auth_for_site env cfg site with
          | Except.error e => Except.error e
          | Except.ok _auth =>
            Except.ok (fetchLoop env cfg net site fuel
              [(ensureAware cs0, ensureAware ce0)] ([], ∅))

/-- Dict-style access `ef.get(key)` on a frame descriptor as decoded from
the remote API response: the API object carries exactly the CamelCase keys
modelled by `Frame` (plus the nested `Links` object), so every other key
reads as absent. -/
def frameGet (ef : Frame) (key : String) : Option String :=
  if key = "Name" then ef.Name
  else if key = "StartTime" then ef.StartTime
  else if key = "EndTime" then ef.EndTime
  else if key = "TemplateName" then ef.TemplateName
  else if key = "WebId" then ef.WebId
  else if key = "Id" then ef.Id
  else none

/-- The in-progress filter of the legacy variant
(src/old_fetch_eventframe.py line 99): keep `ef` iff
the value the frame dict holds under the key `End Time` (note the space;
the API key is `EndTime`), coalesced to the empty string, does not start
with the sentinel. -/
def old_filter_keep (ef : Frame) : Bool :=
  !(pyStartswith (pyOrStr (frameGet ef "End Time")) "9999-12-31")

/-- The record produced for one frame. -/
def recOf (env : Env) (cfg : Config) (net : Network) (site : String)
    (ef : Frame) : Record :=
  (fetch_attributes env cfg net ef site).1

/-- The attribute-name sets contributed by a list of frames, unioned. -/
def attrsOfList (env : Env) (cfg : Config) (net : Network) (site : String)
    (frames : List Frame) : Finset String :=
  frames.foldr (fun ef s => (fetch_attributes env cfg net ef site).2 ∪ s) ∅

/-- The processing a popped interval receives when the page cap is not
hit: the non-split branch of the loop body (lines 209-236). -/
def processInterval (env : Env) (cfg : Config) (net : Network) (site : String)
    (frames : List Frame) (acc : List Record × Finset String) :
    List Record × Finset String :=
  if frames.isEmpty then acc
  else
    let filtered := frames.filter keepFrame
    if filtered.isEmpty then acc
    else
      let r := fetch_attributes_parallel env cfg net filtered site
      (acc.1 ++ r.1, acc.2 ∪ r.2)

lemma attrsOfList_cons (env : Env) (cfg : Config) (net : Network)
    (site : String) (ef : Frame) (fs : List Frame) :
    attrsOfList env cfg net site (ef :: fs) =
      (fetch_attributes env cfg net ef site).2 ∪ attrsOfList env cfg net site fs := rfl

lemma attrsOfList_append (env : Env) (cfg : Config) (net : Network)
    (site : String) (xs ys : List Frame) :
    attrsOfList env cfg net site (xs ++ ys) =
      attrsOfList env cfg net site xs ∪ attrsOfList env cfg net site ys := by
  induction xs with
  | nil => simp [attrsOfList]
  | cons ef fs ih => simp [attrsOfList_cons, ih, Finset.union_assoc]

lemma fap_foldl (env : Env) (cfg : Config) (net : Network) (site : String) :
    ∀ (frames : List Frame) (acc : List Record × Finset String),
      frames.foldl
        (fun acc ef =>
          let r := fetch_attributes env cfg net ef site
          (acc.1 ++ [r.1], acc.2 ∪ r.2)) acc =
      (acc.1 ++ frames.map (recOf env cfg net site),
       acc.2 ∪ attrsOfList env cfg net site frames) := by
  intro frames
  induction frames with
  | nil => intro acc; simp [attrsOfList]
  | cons ef fs ih =>
    intro acc
    rw [List.foldl_cons, ih]
    simp [recOf, attrsOfList_cons, Finset.union_assoc]

lemma fap_eq (env : Env) (cfg : Config) (net : Network) (site : String)
    (frames : List Frame) :
    fetch_attributes_parallel env cfg net frames site =
      (frames.map (recOf env cfg net site),
       attrsOfList env cfg net site frames) := by
  rw [fetch_attributes_parallel, fap_foldl]
  simp

lemma processInterval_eq (env : Env) (cfg : Config) (net : Network)
    (site : String) (frames : List Frame) (acc : List Record × Finset String) :
    processInterval env cfg net site frames acc =
      (acc.1 ++ (frames.filter keepFrame).map (recOf env cfg net site),
       acc.2 ∪ attrsOfList env cfg net site (frames.filter keepFrame)) := by
  rw [processInterval]
  by_cases h1 : frames.isEmpty
  · rw [if_pos h1]
    rw [List.isEmpty_iff] at h1
    subst h1
    simp [attrsOfList]
  · rw [if_neg h1]
    by_cases h2 : (frames.filter keepFrame).isEmpty
    · simp only [h2, if_pos]
      rw [List.isEmpty_iff] at h2
      rw [h2]
      simp [attrsOfList]
    · simp only [h2, if_neg, Bool.false_eq_true, not_false_iff]
      rw [fap_eq]

lemma processInterval_append (env : Env) (cfg : Config) (net : Network)
    (site : String) (xs ys : List Frame) (acc : List Record × Finset String) :
    processInterval env cfg net site ys
      (processInterval env cfg net site xs acc) =
    processInterval env cfg net site (xs ++ ys) acc := by
  simp [processInterval_eq, List.filter_append, attrsOfList_append,
    Finset.union_assoc]

lemma fetchLoop_nil (env : Env) (cfg : Config) (net : Network) (site : String)
    (fuel : Nat) (acc : List Record × Finset String) :
    fetchLoop env cfg net site fuel [] acc = some acc := by
  cases fuel <;> rfl

lemma fetchLoop_split (env : Env) (cfg : Config) (net : Network)
    (site : String) (fuel : Nat) (s e : PyDatetime)
    (rest : List (PyDatetime × PyDatetime)) (acc : List Record × Finset String)
    (h : CHUNK_SIZE ≤ (fetch_eventframe_list net s e).length) :
    fetchLoop env cfg net site (fuel + 1) ((s, e) :: rest) acc =
      fetchLoop env cfg net site fuel
        ((s, midTime s e) :: (midTime s e, e) :: rest) acc := by
  simp only [fetchLoop]
  rw [if_pos h]

lemma fetchLoop_small (env : Env) (cfg : Config) (net : Network)
    (site : String) (fuel : Nat) (s e : PyDatetime)
    (rest : List (PyDatetime × PyDatetime)) (acc : List Record × Finset String)
    (h : (fetch_eventframe_list net s e).length < CHUNK_SIZE) :
    fetchLoop env cfg net site (fuel + 1) ((s, e) :: rest) acc =
      fetchLoop env cfg net site fuel rest
        (processInterval env cfg net site (fetch_eventframe_list net s e) acc) := by
  simp only [fetchLoop, processInterval]
  rw [if_neg (Nat.not_le_of_lt h)]
  by_cases h1 : (fetch_eventframe_list net s e).isEmpty
  · rw [if_pos h1, if_pos h1]
  · rw [if_neg h1, if_neg h1]
    by_cases h2 : ((fetch_eventframe_list net s e).filter keepFrame).isEmpty
    · rw [if_pos h2, if_pos h2]
    · rw [if_neg h2, if_neg h2]

lemma rlookup_isSome_iff (k : String) :
    ∀ d : Record, (rlookup k d).isSome = true ↔ k ∈ rkeys d := by
  intro d
  induction d with
  | nil => simp [rlookup, rkeys]
  | cons p rest ih =>
    obtain ⟨k2, v⟩ := p
    by_cases h : k2 = k
    · subst h
      simp [rlookup, rkeys]
    · simp [rlookup, rkeys, h, ih, Ne.symm h]

lemma rkeys_map_overwrite (d : Record) (k : String) (v : JVal) :
    rkeys (d.map (fun p => if p.1 = k then (k, v) else p)) = rkeys d := by
  simp only [rkeys, List.map_map]
  apply List.map_congr_left
  intro p _
  by_cases h : p.1 = k
  · simp [h]
  · simp [h]

lemma rkeys_dictInsert (d : Record) (k : String) (v : JVal) :
    rkeys (dictInsert d k v) =
      if k ∈ rkeys d then rkeys d else rkeys d ++ [k] := by
  rw [dictInsert]
  by_cases h : (rlookup k d).isSome = true
  · rw [if_pos h, rkeys_map_overwrite, if_pos ((rlookup_isSome_iff k d).mp h)]
  · rw [if_neg h, if_neg (fun hm => h ((rlookup_isSome_iff k d).mpr hm))]
    simp [rkeys]

lemma mem_rkeys_dictInsert (d : Record) (k k2 : String) (v : JVal) :
    k2 ∈ rkeys (dictInsert d k v) ↔ k2 ∈ rkeys d ∨ k2 = k := by
  rw [rkeys_dictInsert]
  by_cases h : k ∈ rkeys d
  · rw [if_pos h]
    constructor
    · exact fun hm => Or.inl hm
    · rintro (hm | rfl)
      · exact hm
      · exact h
  · rw [if_neg h]
    simp

lemma mem_rkeys_dictUpdate (k : String) :
    ∀ (d2 d : Record),
      k ∈ rkeys (dictUpdate d d2) ↔ k ∈ rkeys d ∨ k ∈ rkeys d2 := by
  intro d2
  induction d2 with
  | nil => simp [dictUpdate, rkeys]
  | cons p rest ih =>
    intro d
    have step : dictUpdate d (p :: rest) = dictUpdate (dictInsert d p.1 p.2) rest := rfl
    rw [step, ih, mem_rkeys_dictInsert]
    simp [rkeys, or_assoc]

lemma rkeys_dictUpdate_disjoint :
    ∀ (d2 d : Record), (rkeys d2).Nodup →
      (∀ k ∈ rkeys d2, k ∉ rkeys d) →
      rkeys (dictUpdate d d2) = rkeys d ++ rkeys d2 := by
  intro d2
  induction d2 with
  | nil => intro d _ _; simp [dictUpdate, rkeys]
  | cons p rest ih =>
    intro d hnd hdisj
    have step : dictUpdate d (p :: rest) = dictUpdate (dictInsert d p.1 p.2) rest := rfl
    have hk : p.1 ∉ rkeys d := hdisj p.1 (by simp [rkeys])
    have hins : rkeys (dictInsert d p.1 p.2) = rkeys d ++ [p.1] := by
      rw [rkeys_dictInsert, if_neg hk]
    have hnd2 : (rkeys rest).Nodup := by
      have : rkeys (p :: rest) = p.1 :: rkeys rest := rfl
      rw [this] at hnd
      exact hnd.of_cons
    have hfresh : p.1 ∉ rkeys rest := by
      have : rkeys (p :: rest) = p.1 :: rkeys rest := rfl
      rw [this] at hnd
      exact (List.nodup_cons.mp hnd).1
    have hdisj2 : ∀ k ∈ rkeys rest, k ∉ rkeys (dictInsert d p.1 p.2) := by
      intro k hkm
      rw [hins]
      intro hmem
      rcases List.mem_append.mp hmem with hmem | hmem
      · exact hdisj k (List.mem_cons_of_mem p.1 hkm) hmem
      · rcases List.mem_singleton.mp hmem with rfl
        exact hfresh hkm
    rw [step, ih _ hnd2 hdisj2, hins]
    simp [rkeys]

lemma rkeys_parse_basic (env : Env) (cfg : Config) (ef : Frame)
    (site : String) :
    rkeys (parse_eventframe_basic_info env cfg ef site) = coreFields := rfl

lemma fsav_fst (net : Network) (attr : Attr) :
    (fetch_single_attribute_value net attr).1 = attr.Name := by
  rw [fetch_single_attribute_value]
  rcases attr.valueLink with _ | link
  · rfl
  · by_cases h : link = ""
    · simp [h]
    · simp only [h, if_neg, Bool.false_eq_true, not_false_iff]
      rcases net.valueFetch link with _ | j
      · rfl
      · cases j <;> rfl

/-- The truthy attribute names of a directory, in order. -/
def namedOf (items : List Attr) : List String :=
  items.filterMap (fun a => if pyTruthyName a.Name then a.Name else none)

lemma favp_step_skip (net : Network) (acc : Record) (attr : Attr)
    (h : pyTruthyName attr.Name = false) : favp_step net acc attr = acc := by
  rcases hv : fetch_single_attribute_value net attr with ⟨nm, v⟩
  have hf : nm = attr.Name := by rw [← fsav_fst net attr, hv]
  rw [favp_step, hv, hf]
  rcases hn : attr.Name with _ | n
  · rfl
  · rw [hn] at h
    have he : n = "" := by simpa [pyTruthyName] using h
    simp [he]

lemma favp_step_insert (net : Network) (acc : Record) (attr : Attr)
    (n : String) (hn : attr.Name = some n) (he : n ≠ "") :
    favp_step net acc attr =
      dictInsert acc n (fetch_single_attribute_value net attr).2 := by
  rcases hv : fetch_single_attribute_value net attr with ⟨nm, v⟩
  have hf : nm = attr.Name := by rw [← fsav_fst net attr, hv]
  rw [favp_step, hv, hf, hn]
  simp [he]

lemma favp_keys_go (net : Network) :
    ∀ (items : List Attr) (acc : Record),
      (namedOf items).Nodup →
      (∀ k ∈ namedOf items, k ∉ rkeys acc) →
      rkeys (items.foldl (favp_step net) acc) =
      rkeys acc ++ namedOf items := by
  intro items
  induction items with
  | nil => intro acc _ _; simp [namedOf]
  | cons a rest ih =>
    intro acc hnd hdisj
    rw [List.foldl_cons]
    rcases ha : a.Name with _ | n
    · rw [favp_step_skip net acc a (by simp [pyTruthyName, ha])]
      have hnamed : namedOf (a :: rest) = namedOf rest := by
        simp [namedOf, ha, pyTruthyName]
      rw [hnamed] at hnd hdisj
      rw [hnamed]
      exact ih acc hnd hdisj
    · by_cases he : n = ""
      · rw [favp_step_skip net acc a (by simp [pyTruthyName, ha, he])]
        have hnamed : namedOf (a :: rest) = namedOf rest := by
          simp [namedOf, ha, pyTruthyName, he]
        rw [hnamed] at hnd hdisj
        rw [hnamed]
        exact ih acc hnd hdisj
      · have hnamed : namedOf (a :: rest) = n :: namedOf rest := by
          simp [namedOf, ha, pyTruthyName, he]
        rw [hnamed] at hnd hdisj
        rw [hnamed, favp_step_insert net acc a n ha he]
        have hkacc : n ∉ rkeys acc := hdisj n (List.mem_cons_self n _)
        have hins : rkeys (dictInsert acc n (fetch_single_attribute_value net a).2) =
            rkeys acc ++ [n] := by
          rw [rkeys_dictInsert, if_neg hkacc]
        have hfresh : n ∉ namedOf rest := (List.nodup_cons.mp hnd).1
        have hdisj2 : ∀ k ∈ namedOf rest,
            k ∉ rkeys (dictInsert acc n (fetch_single_attribute_value net a).2) := by
          intro k hkm
          rw [hins]
          intro hmem
          rcases List.mem_append.mp hmem with hmem | hmem
          · exact hdisj k (List.mem_cons_of_mem n hkm) hmem
          · rcases List.mem_singleton.mp hmem with rfl
            exact hfresh hkm
        rw [ih _ (List.nodup_cons.mp hnd).2 hdisj2, hins]
        simp

lemma favp_keys_nodup (net : Network) (items : List Attr)
    (hnd : (namedOf items).Nodup) :
    rkeys (fetch_attribute_values_parallel net items) = namedOf items := by
  rw [fetch_attribute_values_parallel, favp_keys_go net items [] hnd (by simp [rkeys])]
  simp [rkeys]

lemma mem_rkeys_favp_go (net : Network) (k : String) :
    ∀ (items : List Attr) (acc : Record),
      k ∈ rkeys (items.foldl (favp_step net) acc) →
      k ∈ rkeys acc ∨ ∃ a ∈ items, a.Name = some k := by
  intro items
  induction items with
  | nil => intro acc h; exact Or.inl h
  | cons a rest ih =>
    intro acc h
    rw [List.foldl_cons] at h
    rcases ha : a.Name with _ | n
    · rw [favp_step_skip net acc a (by simp [pyTruthyName, ha])] at h
      rcases ih acc h with h2 | ⟨b, hb, hbn⟩
      · exact Or.inl h2
      · exact Or.inr ⟨b, List.mem_cons_of_mem a hb, hbn⟩
    · by_cases he : n = ""
      · rw [favp_step_skip net acc a (by simp [pyTruthyName, ha, he])] at h
        rcases ih acc h with h2 | ⟨b, hb, hbn⟩
        · exact Or.inl h2
        · exact Or.inr ⟨b, List.mem_cons_of_mem a hb, hbn⟩
      · rw [favp_step_insert net acc a n ha he] at h
        rcases ih _ h with h2 | ⟨b, hb, hbn⟩
        · rcases (mem_rkeys_dictInsert acc n k _).mp h2 with h3 | rfl
          · exact Or.inl h3
          · exact Or.inr ⟨a, List.mem_cons_self a rest, ha⟩
        · exact Or.inr ⟨b, List.mem_cons_of_mem a hb, hbn⟩

lemma mem_rkeys_favp (net : Network) (k : String) (items : List Attr)
    (h : k ∈ rkeys (fetch_attribute_values_parallel net items)) :
    ∃ a ∈ items, a.Name = some k := by
  rcases mem_rkeys_favp_go net k items [] h with h2 | h2
  · simp [rkeys] at h2
  · exact h2

lemma mem_fap_fst (env : Env) (cfg : Config) (net : Network) (site : String)
    (frames : List Frame) (rec : Record)
    (h : rec ∈ (fetch_attributes_parallel env cfg net frames site).1) :
    ∃ ef ∈ frames, rec = (fetch_attributes env cfg net ef site).1 := by
  rw [fap_eq] at h
  simp only at h
  rcases List.mem_map.mp h with ⟨ef, hef, hrec⟩
  exact ⟨ef, hef, hrec.symm⟩

lemma fetchLoop_origin (env : Env) (cfg : Config) (net : Network)
    (site : String) :
    ∀ (fuel : Nat) (stack : List (PyDatetime × PyDatetime))
      (acc res : List Record × Finset String),
      fetchLoop env cfg net site fuel stack acc = some res →
      ∀ rec ∈ res.1, rec ∈ acc.1 ∨
        ∃ ef, keepFrame ef = true ∧
          rec = (fetch_attributes env cfg net ef site).1 := by
  intro fuel
  induction fuel with
  | zero =>
    intro stack acc res h rec hrec
    cases stack with
    | nil =>
      rw [fetchLoop_nil] at h
      cases h
      exact Or.inl hrec
    | cons hd tl =>
      obtain ⟨s, e⟩ := hd
      cases h
  | succ n ih =>
    intro stack acc res h rec hrec
    cases stack with
    | nil =>
      rw [fetchLoop_nil] at h
      cases h
      exact Or.inl hrec
    | cons hd tl =>
      obtain ⟨s, e⟩ := hd
      by_cases hcap : CHUNK_SIZE ≤ (fetch_eventframe_list net s e).length
      · rw [fetchLoop_split env cfg net site n s e tl acc hcap] at h
        exact ih _ _ _ h rec hrec
      · rw [fetchLoop_small env cfg net site n s e tl acc
          (Nat.lt_of_not_le hcap)] at h
        rcases ih _ _ _ h rec hrec with hin | hex
        · rw [processInterval_eq] at hin
          simp only at hin
          rcases List.mem_append.mp hin with h1 | h2
          · exact Or.inl h1
          · rcases List.mem_map.mp h2 with ⟨ef, hef, hrec2⟩
            refine Or.inr ⟨ef, ?_, hrec2.symm⟩
            exact (List.mem_filter.mp hef).2
        · exact Or.inr hex

lemma fetch_attributes_cases (env : Env) (cfg : Config) (net : Network)
    (ef : Frame) (site : String) :
    fetch_attributes env cfg net ef site =
        (parse_eventframe_basic_info env cfg ef site, ∅) ∨
      ∃ link items, ef.attributesLink = some link ∧ link ≠ "" ∧
        net.attrDirectory link = some items ∧
        fetch_attributes env cfg net ef site =
          (dictUpdate (parse_eventframe_basic_info env cfg ef site)
            (fetch_attribute_values_parallel net items),
           (rkeys (fetch_attribute_values_parallel net items)).toFinset) := by
  rw [fetch_attributes]
  split
  · exact Or.inl rfl
  · rename_i link hl
    by_cases he : link = ""
    · rw [if_pos he]
      exact Or.inl rfl
    · rw [if_neg he]
      split
      · exact Or.inl rfl
      · rename_i items hd
        by_cases hemp : items.isEmpty
        · rw [if_pos hemp]
          exact Or.inl rfl
        · rw [if_neg hemp]
          exact Or.inr ⟨link, items, hl, he, hd, rfl⟩

lemma fetch_eventframes_ok (env : Env) (cfg : Config) (net : Network)
    (site : String) (st et : Option TimeArg) (fuel : Nat)
    (res : List Record × Finset String)
    (h : fetch_eventframes env cfg net site st et fuel = Except.ok (some res)) :
    res = ([], ∅) ∨
      ∃ s e, fetchLoop env cfg net site fuel [(s, e)] ([], ∅) = some res := by
  unfold fetch_eventframes at h
  split at h
  · injection h with h2
    injection h2 with h3
    exact Or.inl h3.symm
  · split at h
    · injection h with h2
      injection h2 with h3
      exact Or.inl h3.symm
    · split at h
      · injection h with h2
        injection h2 with h3
        exact Or.inl h3.symm
      · split at h
        · cases h
        · split at h
          · cases h
          · split at h
            · cases h
            · injection h with h2
              exact Or.inr ⟨_, _, h2⟩

lemma pyHalf_bounds (d : Int) (h : 0 ≤ d) : 0 ≤ pyHalf d ∧ pyHalf d ≤ d := by
  rw [pyHalf]
  split_ifs <;> omega

/-- A small concrete site registry used by the concrete instances below. -/
def cfgW : Config :=
  ⟨fun s =>
    if s = "EGYPT" then
      some ⟨"Africa/Cairo", "KERBEROS", "https://pi.example/piwebapi", "TPL", "DB1"⟩
    else if s = "BADTZ" then
      some ⟨"Mars/Olympus", "KERBEROS", "https://pi.example/piwebapi", "TPL", "DB2"⟩
    else none⟩

/-- A concrete environment: one parsable timestamp, a constant local-time
formatter, a timezone database knowing only the Cairo zone. -/
def envW : Env :=
  ⟨fun s => if s = "2025-06-30T19:56:40Z" then some ⟨some 0, 1751313400000000⟩ else none,
   fun _ => "LOCAL",
   fun z => if z = "Africa/Cairo" then some 7200 else none,
   ⟨some 0, 1800000000000000⟩, none, none⟩

/-- A network whose frame-list endpoint answers with no frames and whose
attribute endpoints all fail. -/
def netW : Network := ⟨fun _ _ => some [], fun _ => none, fun _ => none⟩

/-- A network on which every request raises. -/
def netFailW : Network := ⟨fun _ _ => none, fun _ => none, fun _ => none⟩

/-- A closed event frame without an attributes link. -/
def efW : Frame :=
  ⟨some "F1", some "2025-06-30T19:56:40Z", some "2025-07-01T00:00:00Z",
   some "TPL", some "W1", some "I1", none⟩

/-- A still-open event frame (sentinel end time), API-shaped. -/
def efOpenW : Frame :=
  ⟨some "F2", some "2025-06-30T19:56:40Z", some "9999-12-31T23:59:59Z",
   some "TPL", some "W2", some "I2", none⟩

/-- A closed event frame carrying an attributes link. -/
def efLinkW : Frame :=
  ⟨some "F3", some "2025-06-30T19:56:40Z", some "2025-07-01T00:00:00Z",
   some "TPL", some "W3", some "I3", some "L1"⟩

/-- An attribute whose value must be fetched from a link. -/
def attrFailW : Attr := ⟨some "Temp", some "V1", JVal.jnull⟩

/-- A network returning exactly one closed frame for every interval. -/
def netC3 : Network := ⟨fun _ _ => some [efW], fun _ => none, fun _ => none⟩

/-- C9: `to_site_local` fails with a `ValueError` (the `InvalidInput`
class of the spec taxonomy) on every naive datetime and on every aware datetime whose
UTC offset is non-zero; it never silently converts such an input. -/
theorem C9_to_site_local_rejects_non_utc (cfg : Config) (env : Env)
    (utc_dt : PyDatetime) (site : String) :
    (utc_dt.tzOffset = none →
      to_site_local cfg env utc_dt site = Except.error (PyError.ValueError
        "utc_dt is naive; pass an aware UTC datetime (tzinfo=timezone.utc).")) ∧
    (∀ off : Int, utc_dt.tzOffset = some off → off ≠ 0 →
      to_site_local cfg env utc_dt site = Except.error (PyError.ValueError
        "utc_dt is not in UTC; make sure to pass a UTC datetime.")) := by
  constructor
  · intro h
    simp [to_site_local, h]
  · intro off h hne
    simp [to_site_local, h, hne]

theorem C9_witness :
    to_site_local cfgW envW ⟨none, 0⟩ "EGYPT" = Except.error (PyError.ValueError
      "utc_dt is naive; pass an aware UTC datetime (tzinfo=timezone.utc).") ∧
    to_site_local cfgW envW ⟨some 3600, 0⟩ "EGYPT" = Except.error (PyError.ValueError
      "utc_dt is not in UTC; make sure to pass a UTC datetime.") :=
  ⟨(C9_to_site_local_rejects_non_utc cfgW envW ⟨none, 0⟩ "EGYPT").1 rfl,
   (C9_to_site_local_rejects_non_utc cfgW envW ⟨some 3600, 0⟩ "EGYPT").2 3600 rfl
     (by decide)⟩

/-- C8: on an API-shaped open frame the two in-progress filters disagree:
the current variant drops it, the legacy variant keeps it, because the
legacy filter reads the key `End Time`, which the remote API response does
not carry (it carries `EndTime`). -/
theorem C8_old_filter_diverges :
    old_filter_keep efOpenW = true ∧ keepFrame efOpenW = false ∧
    frameGet efOpenW "End Time" = none ∧
    frameGet efOpenW "EndTime" = some "9999-12-31T23:59:59Z" :=
  ⟨rfl, rfl, rfl, rfl⟩

/-- C2 counterexample: a call with a site identifier that is in no
registry entry does not fail; it returns the normal empty result. -/
theorem C2_counterexample :
    fetch_eventframes envW cfgW netW "NOWHERE"
        (some (TimeArg.str "2025-06-30T19:56:40Z")) none 5 =
      Except.ok (some ([], ∅)) := rfl

/-- C2 (amended): for a missing/empty `start_time`, an empty site, or a
site absent from the registry, `fetch_eventframes` returns the normal
empty result immediately (after printing); no error propagates. -/
theorem C2_invalid_inputs_yield_empty (env : Env) (cfg : Config)
    (net : Network) (site : String) (st et : Option TimeArg) (fuel : Nat)
    (h : pyFalsyTimeArg st = true ∨ site = "" ∨ cfg.sites site = none) :
    fetch_eventframes env cfg net site st et fuel = Except.ok (some ([], ∅)) := by
  unfold fetch_eventframes
  rcases h with h | h | h
  · rw [if_pos (by simp [h])]
  · rw [if_pos (by simp [h])]
  · by_cases h1 : (pyFalsyTimeArg st || site = "") = true
    · rw [if_pos h1]
    · rw [if_neg h1, if_pos (by simp [h])]

theorem C2_witness :
    fetch_eventframes envW cfgW netW "" (some (TimeArg.dt ⟨some 0, 0⟩)) none 3 =
      Except.ok (some ([], ∅)) :=
  C2_invalid_inputs_yield_empty envW cfgW netW "" (some (TimeArg.dt ⟨some 0, 0⟩))
    none 3 (Or.inr (Or.inl rfl))

/-- C3 counterexample: for a site whose configured zone is absent from the
timezone database, `to_site_local` does raise the configuration error, but
a `fetch_eventframes` run that processes a frame for that site still
completes normally, emitting a degraded record whose local-time fields are
empty strings. -/
theorem C3_counterexample :
    to_site_local cfgW envW ⟨some 0, 1751313400000000⟩ "BADTZ" =
      Except.error (PyError.RuntimeError
        "Time zone data not found. Install tzdata: pip install tzdata") ∧
    fetch_eventframes envW cfgW netC3 "BADTZ" (some (TimeArg.dt ⟨some 0, 0⟩))
        (some (TimeArg.dt ⟨some 0, 100⟩)) 1 =
      Except.ok (some
        ([[("Event Frame Name", JVal.jstr "F1"),
           ("Start Time", JVal.jstr ""),
           ("Start Time UTC", JVal.jstr "2025-06-30T19:56:40Z"),
           ("End Time", JVal.jstr ""),
           ("End Time UTC", JVal.jstr "2025-07-01T00:00:00Z"),
           ("Template Name", JVal.jstr "TPL"),
           ("WebId", JVal.jstr "W1"),
           ("Id", JVal.jstr "I1")]], ∅)) :=
  ⟨rfl, rfl⟩

/-- C3 (amended): `to_site_local` fails with a `RuntimeError` (the
`ConfigurationError` class of the spec taxonomy) when the zone of the
site is missing from the
timezone database, but `_convert_to_local_time` swallows that error into
the empty string, so a `fetch_eventframes` run over such a site completes
normally (no error propagates), with empty local-time fields. -/
theorem C3_missing_timezone_swallowed (env : Env) (cfg : Config)
    (net : Network) (site : String) (sc : SiteConfig)
    (hs : cfg.sites site = some sc) (hz : env.tzdb sc.TIMEZONE = none) :
    (∀ dt : PyDatetime, dt.tzOffset = some 0 →
      to_site_local cfg env dt site = Except.error (PyError.RuntimeError
        "Time zone data not found. Install tzdata: pip install tzdata")) ∧
    (∀ s : Option String, convert_to_local_time env cfg s site = "") ∧
    (∀ ef : Frame, parse_eventframe_basic_info env cfg ef site =
      [("Event Frame Name", optJ ef.Name),
       ("Start Time", JVal.jstr ""),
       ("Start Time UTC", optJ ef.StartTime),
       ("End Time", JVal.jstr ""),
       ("End Time UTC", optJ ef.EndTime),
       ("Template Name", optJ ef.TemplateName),
       ("WebId", optJ ef.WebId),
       ("Id", optJ ef.Id)]) ∧
    (site ≠ "" → sc.AUTH ≠ "BASIC" →
      ∀ (st et : PyDatetime) (fuel : Nat),
        fetch_eventframes env cfg net site (some (TimeArg.dt st))
            (some (TimeArg.dt et)) fuel =
          Except.ok (fetchLoop env cfg net site fuel
            [(ensureAware st, ensureAware et)] ([], ∅))) := by
  have htsl : ∀ dt : PyDatetime, dt.tzOffset = some 0 →
      to_site_local cfg env dt site = Except.error (PyError.RuntimeError
        "Time zone data not found. Install tzdata: pip install tzdata") := by
    intro dt hdt
    simp [to_site_local, hdt, hs, hz]
  have hcv : ∀ s : Option String, convert_to_local_time env cfg s site = "" := by
    intro s
    rw [convert_to_local_time]
    split
    · rfl
    · split
      · rfl
      · rename_i hfalsy dt hparse
        rw [to_site_local]
        rcases hdt : dt.tzOffset with _ | off
        · rfl
        · by_cases hoff : off ≠ 0
          · simp [hoff]
          · push_neg at hoff
            subst hoff
            simp [hs, hz]
  refine ⟨htsl, hcv, ?_, ?_⟩
  · intro ef
    rw [parse_eventframe_basic_info, hcv, hcv]
  · intro hsite hauth st et fuel
    unfold fetch_eventframes
    rw [if_neg (by simp [pyFalsyTimeArg, hsite]),
        if_neg (by simp [hs])]
    simp only [parseTimeArg, parseEnd, get_auth_for_site, hs, if_neg hauth]

theorem C3_witness :
    convert_to_local_time envW cfgW (some "2025-06-30T19:56:40Z") "BADTZ" = "" ∧
    fetch_eventframes envW cfgW netC3 "BADTZ"
        (some (TimeArg.dt ⟨some 0, 0⟩)) (some (TimeArg.dt ⟨some 0, 200⟩)) 2 =
      Except.ok (fetchLoop envW cfgW netC3 "BADTZ" 2
        [(⟨some 0, 0⟩, ⟨some 0, 200⟩)] ([], ∅)) :=
  ⟨(C3_missing_timezone_swallowed envW cfgW netC3 "BADTZ"
      ⟨"Mars/Olympus", "KERBEROS", "https://pi.example/piwebapi", "TPL", "DB2"⟩
      rfl rfl).2.1 (some "2025-06-30T19:56:40Z"),
   (C3_missing_timezone_swallowed envW cfgW netC3 "BADTZ"
      ⟨"Mars/Olympus", "KERBEROS", "https://pi.example/piwebapi", "TPL", "DB2"⟩
      rfl rfl).2.2.2 (by decide) (by decide) ⟨some 0, 0⟩ ⟨some 0, 200⟩ 2⟩

/-- C1: transient fetch failures are swallowed at the smallest
granularity: (1) a failing frame-list fetch yields the empty item list;
(2) a failing attribute-directory fetch yields a record with exactly the
eight core fields and no attribute names; (3) a failing value fetch yields
the empty string as the value of that attribute; (4) the result of an
attribute
depends only on the fetch at its own value link, so one failing value
fetch changes no other field; (5) an interval whose frame-list fetch fails
contributes nothing and the loop continues with the remaining work. -/
theorem C1_transient_failures_swallowed :
    (∀ (net : Network) (s e : PyDatetime),
      net.listFrames s.instant e.instant = none →
      fetch_eventframe_list net s e = []) ∧
    (∀ (env : Env) (cfg : Config) (net : Network) (ef : Frame)
       (site link : String),
      ef.attributesLink = some link → link ≠ "" →
      net.attrDirectory link = none →
      fetch_attributes env cfg net ef site =
        (parse_eventframe_basic_info env cfg ef site, ∅) ∧
      rkeys (parse_eventframe_basic_info env cfg ef site) = coreFields) ∧
    (∀ (net : Network) (attr : Attr) (link : String),
      attr.valueLink = some link → link ≠ "" →
      net.valueFetch link = none →
      fetch_single_attribute_value net attr = (attr.Name, JVal.jstr "")) ∧
    (∀ (net net2 : Network) (attr : Attr),
      (∀ l : String, attr.valueLink = some l →
        net.valueFetch l = net2.valueFetch l) →
      fetch_single_attribute_value net attr =
        fetch_single_attribute_value net2 attr) ∧
    (∀ (env : Env) (cfg : Config) (net : Network) (site : String)
       (fuel : Nat) (s e : PyDatetime)
       (rest : List (PyDatetime × PyDatetime))
       (acc : List Record × Finset String),
      net.listFrames s.instant e.instant = none →
      fetchLoop env cfg net site (fuel + 1) ((s, e) :: rest) acc =
        fetchLoop env cfg net site fuel rest acc) := by
  refine ⟨?_, ?_, ?_, ?_, ?_⟩
  · intro net s e h
    rw [fetch_eventframe_list, h]
  · intro env cfg net ef site link hl he hd
    refine ⟨?_, rfl⟩
    simp [fetch_attributes, hl, he, hd]
  · intro net attr link hl he hd
    simp [fetch_single_attribute_value, hl, he, hd]
  · intro net net2 attr h
    rw [fetch_single_attribute_value, fetch_single_attribute_value]
    rcases hl : attr.valueLink with _ | l
    · rfl
    · by_cases he : l = ""
      · simp [he]
      · simp only [he, if_neg, Bool.false_eq_true, not_false_iff]
        rw [h l hl]
  · intro env cfg net site fuel s e rest acc h
    have hl : fetch_eventframe_list net s e = [] := by
      rw [fetch_eventframe_list, h]
    rw [fetchLoop_small env cfg net site fuel s e rest acc
      (by rw [hl]; simp [CHUNK_SIZE]), hl]
    rfl

theorem C1_witness :
    fetch_eventframe_list netFailW ⟨some 0, 0⟩ ⟨some 0, 100⟩ = [] ∧
    (fetch_attributes envW cfgW netW efLinkW "EGYPT" =
        (parse_eventframe_basic_info envW cfgW efLinkW "EGYPT", ∅) ∧
      rkeys (parse_eventframe_basic_info envW cfgW efLinkW "EGYPT") = coreFields) ∧
    fetch_single_attribute_value netW attrFailW = (attrFailW.Name, JVal.jstr "") ∧
    fetch_single_attribute_value netW attrFailW =
      fetch_single_attribute_value netC3 attrFailW ∧
    fetchLoop envW cfgW netFailW "EGYPT" 1 [(⟨some 0, 0⟩, ⟨some 0, 100⟩)] ([], ∅) =
      fetchLoop envW cfgW netFailW "EGYPT" 0 [] ([], ∅) :=
  ⟨C1_transient_failures_swallowed.1 netFailW ⟨some 0, 0⟩ ⟨some 0, 100⟩ rfl,
   C1_transient_failures_swallowed.2.1 envW cfgW netW efLinkW "EGYPT" "L1"
     rfl (by decide) rfl,
   C1_transient_failures_swallowed.2.2.1 netW attrFailW "V1" rfl (by decide) rfl,
   C1_transient_failures_swallowed.2.2.2.1 netW netC3 attrFailW
     (fun l _ => rfl),
   C1_transient_failures_swallowed.2.2.2.2 envW cfgW netFailW "EGYPT" 0
     ⟨some 0, 0⟩ ⟨some 0, 100⟩ [] ([], ∅) rfl⟩

/-- C10: an attribute descriptor with a missing or empty name contributes
nothing to a record or to the attribute-name set (first conjunct, which
holds whether or not its value resolves); consequently, when the directory
holds `k` attributes whose truthy names are distinct and disjoint from the
core fields, the record has the eight core fields followed by exactly the
truthy names, so one unnamed attribute among `k` leaves `8 + (k - 1)`
fields. -/
theorem C10_unnamed_attribute_omitted :
    (∀ (net : Network) (attr : Attr) (pre post : List Attr),
      pyTruthyName attr.Name = false →
      fetch_attribute_values_parallel net (pre ++ attr :: post) =
        fetch_attribute_values_parallel net (pre ++ post)) ∧
    (∀ (env : Env) (cfg : Config) (net : Network) (ef : Frame)
       (site link : String) (items : List Attr),
      ef.attributesLink = some link → link ≠ "" →
      net.attrDirectory link = some items → items.isEmpty = false →
      (namedOf items).Nodup → (∀ k ∈ namedOf items, k ∉ coreFields) →
      rkeys (fetch_attributes env cfg net ef site).1 =
          coreFields ++ namedOf items ∧
      (fetch_attributes env cfg net ef site).2 = (namedOf items).toFinset ∧
      (rkeys (fetch_attributes env cfg net ef site).1).length =
          8 + (namedOf items).length) := by
  constructor
  · intro net attr pre post h
    rw [fetch_attribute_values_parallel, fetch_attribute_values_parallel,
        List.foldl_append, List.foldl_append, List.foldl_cons,
        favp_step_skip net _ attr h]
  · intro env cfg net ef site link items hl he hd hemp hnd hdisj
    have hfa : fetch_attributes env cfg net ef site =
        (dictUpdate (parse_eventframe_basic_info env cfg ef site)
          (fetch_attribute_values_parallel net items),
         (rkeys (fetch_attribute_values_parallel net items)).toFinset) := by
      simp [fetch_attributes, hl, he, hd, hemp]
    have hkeys : rkeys (fetch_attribute_values_parallel net items) =
        namedOf items := favp_keys_nodup net items hnd
    have hupd : rkeys (dictUpdate (parse_eventframe_basic_info env cfg ef site)
        (fetch_attribute_values_parallel net items)) =
        coreFields ++ namedOf items := by
      rw [rkeys_dictUpdate_disjoint _ _ (by rw [hkeys]; exact hnd)
        (by rw [hkeys, rkeys_parse_basic]; exact hdisj), hkeys,
        rkeys_parse_basic]
    refine ⟨?_, ?_, ?_⟩
    · rw [hfa, hupd]
    · rw [hfa, hkeys]
    · rw [hfa, hupd]
      simp [coreFields]
      omega

/-- Attribute directory used by the C10 instance: three attributes, the
middle one unnamed. -/
def itemsC10 : List Attr :=
  [⟨some "A", none, JVal.jnum 1⟩, ⟨none, none, JVal.jnum 2⟩,
   ⟨some "B", none, JVal.jnum 3⟩]

/-- A network serving the C10 attribute directory. -/
def netC10 : Network :=
  ⟨fun _ _ => some [efLinkW], fun l => if l = "L1" then some itemsC10 else none,
   fun _ => none⟩

theorem C10_witness :
    fetch_attribute_values_parallel netC10
        ([⟨some "A", none, JVal.jnum 1⟩] ++ ⟨none, none, JVal.jnum 2⟩ ::
          [⟨some "B", none, JVal.jnum 3⟩]) =
      fetch_attribute_values_parallel netC10
        ([⟨some "A", none, JVal.jnum 1⟩] ++ [⟨some "B", none, JVal.jnum 3⟩]) ∧
    rkeys (fetch_attributes envW cfgW netC10 efLinkW "EGYPT").1 =
        coreFields ++ namedOf itemsC10 ∧
    (fetch_attributes envW cfgW netC10 efLinkW "EGYPT").2 =
        (namedOf itemsC10).toFinset ∧
    (rkeys (fetch_attributes envW cfgW netC10 efLinkW "EGYPT").1).length =
        8 + (namedOf itemsC10).length :=
  ⟨C10_unnamed_attribute_omitted.1 netC10 ⟨none, none, JVal.jnum 2⟩
     [⟨some "A", none, JVal.jnum 1⟩] [⟨some "B", none, JVal.jnum 3⟩] rfl,
   C10_unnamed_attribute_omitted.2 envW cfgW netC10 efLinkW "EGYPT" "L1"
     itemsC10 rfl (by decide) rfl rfl (by decide) (by decide)⟩

/-- C5: every record in the output of a completed `fetch_eventframes` run
is built from a frame whose end time does not begin with the open-frame
sentinel `9999-12-31`; frames with a sentinel end time are filtered out
before attribute harvesting and never reach the output. -/
theorem C5_open_frames_never_in_output (env : Env) (cfg : Config)
    (net : Network) (site : String) (st et : Option TimeArg) (fuel : Nat)
    (res : List Record × Finset String)
    (h : fetch_eventframes env cfg net site st et fuel = Except.ok (some res)) :
    ∀ rec ∈ res.1, ∃ ef : Frame,
      pyStartswith (pyOrStr ef.EndTime) "9999-12-31" = false ∧
      rec = (fetch_attributes env cfg net ef site).1 := by
  intro rec hrec
  rcases fetch_eventframes_ok env cfg net site st et fuel res h with hres | ⟨s, e, hloop⟩
  · rw [hres] at hrec
    exact absurd hrec (List.not_mem_nil rec)
  · rcases fetchLoop_origin env cfg net site fuel _ _ _ hloop rec hrec with
      hin | ⟨ef, hk, hrec2⟩
    · exact absurd hin (List.not_mem_nil rec)
    · refine ⟨ef, ?_, hrec2⟩
      rw [keepFrame] at hk
      simpa using hk

/-- A network returning one closed and one open frame for every interval,
with failing attribute endpoints. -/
def netC5 : Network := ⟨fun _ _ => some [efW, efOpenW], fun _ => none, fun _ => none⟩

/-- The record the C5 run emits for its closed frame. -/
def recC5 : Record := (fetch_attributes envW cfgW netC5 efW "EGYPT").1

theorem C5_witness :
    ∃ ef : Frame, pyStartswith (pyOrStr ef.EndTime) "9999-12-31" = false ∧
      recC5 = (fetch_attributes envW cfgW netC5 ef "EGYPT").1 :=
  C5_open_frames_never_in_output envW cfgW netC5 "EGYPT"
    (some (TimeArg.dt ⟨some 0, 0⟩)) (some (TimeArg.dt ⟨some 0, 100⟩)) 1
    ([recC5], ∅) rfl recC5 (List.mem_singleton.mpr rfl)

/-- C7: every record in the output of a completed `fetch_eventframes` run
carries all eight core fields, and each of its non-core fields is named by
an attribute found in the attribute directory of the own frame of that
record. -/
theorem C7_core_fields_and_sparse_attributes (env : Env) (cfg : Config)
    (net : Network) (site : String) (st et : Option TimeArg) (fuel : Nat)
    (res : List Record × Finset String)
    (h : fetch_eventframes env cfg net site st et fuel = Except.ok (some res)) :
    ∀ rec ∈ res.1, ∃ ef : Frame,
      rec = (fetch_attributes env cfg net ef site).1 ∧
      (∀ k ∈ coreFields, k ∈ rkeys rec) ∧
      (∀ k ∈ rkeys rec, k ∉ coreFields →
        ∃ (link : String) (items : List Attr) (a : Attr),
          ef.attributesLink = some link ∧
          net.attrDirectory link = some items ∧ a ∈ items ∧
          a.Name = some k) := by
  intro rec hrec
  rcases fetch_eventframes_ok env cfg net site st et fuel res h with hres | ⟨s, e, hloop⟩
  · rw [hres] at hrec
    exact absurd hrec (List.not_mem_nil rec)
  · rcases fetchLoop_origin env cfg net site fuel _ _ _ hloop rec hrec with
      hin | ⟨ef, hk, hrec2⟩
    · exact absurd hin (List.not_mem_nil rec)
    · refine ⟨ef, hrec2, ?_, ?_⟩
      · intro k hk2
        rcases fetch_attributes_cases env cfg net ef site with
          hcase | ⟨link, items, hl, he, hd, hcase⟩
        · rw [hrec2, hcase]
          simpa [rkeys_parse_basic] using hk2
        · rw [hrec2, hcase]
          exact (mem_rkeys_dictUpdate k _ _).mpr
            (Or.inl (by rw [rkeys_parse_basic]; exact hk2))
      · intro k hk2 hkc
        rcases fetch_attributes_cases env cfg net ef site with
          hcase | ⟨link, items, hl, he, hd, hcase⟩
        · rw [hrec2, hcase] at hk2
          simp only [rkeys_parse_basic] at hk2
          exact absurd hk2 hkc
        · rw [hrec2, hcase] at hk2
          rcases (mem_rkeys_dictUpdate k _ _).mp hk2 with hk3 | hk3
          · rw [rkeys_parse_basic] at hk3
            exact absurd hk3 hkc
          · rcases mem_rkeys_favp net k items hk3 with ⟨a, ha, han⟩
            exact ⟨link, items, a, hl, hd, ha, han⟩

/-- The record the C7 run emits for its frame with two named attributes. -/
def recC7 : Record := (fetch_attributes envW cfgW netC10 efLinkW "EGYPT").1

theorem C7_witness :
    ∃ ef : Frame,
      recC7 = (fetch_attributes envW cfgW netC10 ef "EGYPT").1 ∧
      (∀ k ∈ coreFields, k ∈ rkeys recC7) ∧
      (∀ k ∈ rkeys recC7, k ∉ coreFields →
        ∃ (link : String) (items : List Attr) (a : Attr),
          ef.attributesLink = some link ∧
          netC10.attrDirectory link = some items ∧ a ∈ items ∧
          a.Name = some k) :=
  C7_core_fields_and_sparse_attributes envW cfgW netC10 "EGYPT"
    (some (TimeArg.dt ⟨some 0, 0⟩)) (some (TimeArg.dt ⟨some 0, 100⟩)) 1
    ([recC7], (fetch_attributes envW cfgW netC10 efLinkW "EGYPT").2) rfl
    recC7 (List.mem_singleton.mpr rfl)

/-- C4: when the frame-list fetch of a popped interval returns at least the
page cap, the loop performs exactly one bisection of it: the batch is not
processed (the accumulator is untouched), the two halves split at
`T0 + (T2 - T0)/2` are pushed, that split point is the exact temporal
midpoint (stated for spans of whole two-microsecond parity, where Python
halving is exact), the two half-open halves cover exactly the original
half-open span, and when each half then returns fewer than the cap the
whole run finishes in three pops with no further split, just processing
the two halves. -/
theorem C4_one_bisection_at_cap (env : Env) (cfg : Config) (net : Network)
    (site : String) (fuel : Nat) (T0 T2 : PyDatetime)
    (rest : List (PyDatetime × PyDatetime)) (acc : List Record × Finset String)
    (hcap : CHUNK_SIZE ≤ (fetch_eventframe_list net T0 T2).length) :
    fetchLoop env cfg net site (fuel + 1) ((T0, T2) :: rest) acc =
      fetchLoop env cfg net site fuel
        ((T0, midTime T0 T2) :: (midTime T0 T2, T2) :: rest) acc ∧
    (midTime T0 T2).instant = T0.instant + pyHalf (T2.instant - T0.instant) ∧
    (2 ∣ (T2.instant - T0.instant) →
      2 * ((midTime T0 T2).instant - T0.instant) = T2.instant - T0.instant) ∧
    (T0.instant ≤ T2.instant →
      T0.instant ≤ (midTime T0 T2).instant ∧
      (midTime T0 T2).instant ≤ T2.instant ∧
      ∀ t : Int, (T0.instant ≤ t ∧ t < T2.instant) ↔
        ((T0.instant ≤ t ∧ t < (midTime T0 T2).instant) ∨
         ((midTime T0 T2).instant ≤ t ∧ t < T2.instant))) ∧
    ((fetch_eventframe_list net T0 (midTime T0 T2)).length < CHUNK_SIZE →
     (fetch_eventframe_list net (midTime T0 T2) T2).length < CHUNK_SIZE →
     fetchLoop env cfg net site 3 [(T0, T2)] ([], ∅) =
       some (processInterval env cfg net site
         (fetch_eventframe_list net (midTime T0 T2) T2)
         (processInterval env cfg net site
           (fetch_eventframe_list net T0 (midTime T0 T2)) ([], ∅)))) := by
  have hm : (midTime T0 T2).instant =
      T0.instant + pyHalf (T2.instant - T0.instant) := rfl
  refine ⟨fetchLoop_split env cfg net site fuel T0 T2 rest acc hcap, hm, ?_, ?_, ?_⟩
  · intro hdvd
    rw [hm, pyHalf, if_pos hdvd]
    omega
  · intro hle
    have hb := pyHalf_bounds (T2.instant - T0.instant) (by omega)
    rw [hm]
    refine ⟨by omega, by omega, fun t => by omega⟩
  · intro h1 h2
    rw [fetchLoop_split env cfg net site 2 T0 T2 [] ([], ∅) hcap,
        fetchLoop_small env cfg net site 1 T0 (midTime T0 T2) _ _ h1,
        fetchLoop_small env cfg net site 0 (midTime T0 T2) T2 [] _ h2,
        fetchLoop_nil]

/-- The interval endpoints used by the concrete loop instances. -/
def T0W : PyDatetime := ⟨some 0, 0⟩

/-- The upper endpoint of the concrete interval. -/
def T2W : PyDatetime := ⟨some 0, 100⟩

/-- A network returning 1500 frames on the full interval and none on any
other interval. -/
def net4 : Network :=
  ⟨fun a b => if a = 0 ∧ b = 100 then some (List.replicate 1500 efW) else some [],
   fun _ => none, fun _ => none⟩

theorem C4_witness :
    fetchLoop envW cfgW net4 "EGYPT" 3 [(T0W, T2W)] ([], ∅) =
      some (processInterval envW cfgW net4 "EGYPT"
        (fetch_eventframe_list net4 (midTime T0W T2W) T2W)
        (processInterval envW cfgW net4 "EGYPT"
          (fetch_eventframe_list net4 T0W (midTime T0W T2W)) ([], ∅))) ∧
    2 * ((midTime T0W T2W).instant - T0W.instant) = T2W.instant - T0W.instant ∧
    (midTime T0W T2W).instant ≤ T2W.instant := by
  have hfull : fetch_eventframe_list net4 T0W T2W = List.replicate 1500 efW := rfl
  have hcap : CHUNK_SIZE ≤ (fetch_eventframe_list net4 T0W T2W).length := by
    rw [hfull, List.length_replicate]
    decide
  have h1 : fetch_eventframe_list net4 T0W (midTime T0W T2W) = [] := rfl
  have h2 : fetch_eventframe_list net4 (midTime T0W T2W) T2W = [] := rfl
  refine ⟨(C4_one_bisection_at_cap envW cfgW net4 "EGYPT" 2 T0W T2W [] ([], ∅)
    hcap).2.2.2.2 (by rw [h1]; decide) (by rw [h2]; decide),
    (C4_one_bisection_at_cap envW cfgW net4 "EGYPT" 2 T0W T2W [] ([], ∅)
      hcap).2.2.1 (by decide),
    ((C4_one_bisection_at_cap envW cfgW net4 "EGYPT" 2 T0W T2W [] ([], ∅)
      hcap).2.2.2.1 (by decide)).2.1⟩

/-- C6: when the full interval hits the cap once, both halves come in
under the cap, and the half responses of the stub partition its full
response,
the work-stack loop terminates (three pops, and any extra fuel gives the
same answer) and produces exactly what processing the unsplit batch would
have produced: splitting then merging equals not splitting. -/
theorem C6_split_then_merge_is_identity (env : Env) (cfg : Config)
    (net : Network) (site : String) (T0 T2 : PyDatetime)
    (L L1 L2 : List Frame)
    (hfull : net.listFrames T0.instant T2.instant = some L)
    (hcap : CHUNK_SIZE ≤ L.length)
    (h1 : net.listFrames T0.instant (midTime T0 T2).instant = some L1)
    (h2 : net.listFrames (midTime T0 T2).instant T2.instant = some L2)
    (hs1 : L1.length < CHUNK_SIZE) (hs2 : L2.length < CHUNK_SIZE)
    (hsplit : L1 ++ L2 = L) :
    fetchLoop env cfg net site 3 [(T0, T2)] ([], ∅) =
      some (processInterval env cfg net site L ([], ∅)) ∧
    ∀ n : Nat, fetchLoop env cfg net site (3 + n) [(T0, T2)] ([], ∅) =
      some (processInterval env cfg net site L ([], ∅)) := by
  have hfl : fetch_eventframe_list net T0 T2 = L := by
    rw [fetch_eventframe_list, hfull]
  have hfl1 : fetch_eventframe_list net T0 (midTime T0 T2) = L1 := by
    rw [fetch_eventframe_list, h1]
  have hfl2 : fetch_eventframe_list net (midTime T0 T2) T2 = L2 := by
    rw [fetch_eventframe_list, h2]
  have hcap2 : CHUNK_SIZE ≤ (fetch_eventframe_list net T0 T2).length := by
    rw [hfl]; exact hcap
  have key : ∀ m : Nat, fetchLoop env cfg net site (m + 3) [(T0, T2)] ([], ∅) =
      some (processInterval env cfg net site L ([], ∅)) := by
    intro m
    have e1 : m + 3 = (m + 2) + 1 := rfl
    rw [e1, fetchLoop_split env cfg net site (m + 2) T0 T2 [] ([], ∅) hcap2]
    have e2 : m + 2 = (m + 1) + 1 := rfl
    rw [e2, fetchLoop_small env cfg net site (m + 1) T0 (midTime T0 T2) _ _
      (by rw [hfl1]; exact hs1)]
    rw [fetchLoop_small env cfg net site m (midTime T0 T2) T2 [] _
      (by rw [hfl2]; exact hs2)]
    rw [fetchLoop_nil, hfl1, hfl2, processInterval_append, hsplit]
  constructor
  · simpa using key 0
  · intro n
    have := key n
    rwa [Nat.add_comm n 3] at this

/-- A second closed frame, distinguishing the two halves of the C6 stub. -/
def efW2 : Frame :=
  ⟨some "F4", some "2025-06-30T19:56:40Z", some "2025-07-02T00:00:00Z",
   some "TPL", some "W4", some "I4", none⟩

/-- The left-half response of the C6 stub. -/
def L1W : List Frame := List.replicate 600 efW

/-- The right-half response of the C6 stub. -/
def L2W : List Frame := List.replicate 400 efW2

/-- The full-interval response of the C6 stub. -/
def LW : List Frame := L1W ++ L2W

/-- A stub network: 1000 frames on the full interval, its two halves on
the two sub-intervals. -/
def net6 : Network :=
  ⟨fun a b =>
    if a = 0 ∧ b = 100 then some LW
    else if a = 0 ∧ b = 50 then some L1W
    else if a = 50 ∧ b = 100 then some L2W
    else some [],
   fun _ => none, fun _ => none⟩

theorem C6_witness :
    fetchLoop envW cfgW net6 "EGYPT" 3 [(T0W, T2W)] ([], ∅) =
      some (processInterval envW cfgW net6 "EGYPT" LW ([], ∅)) ∧
    fetchLoop envW cfgW net6 "EGYPT" (3 + 2) [(T0W, T2W)] ([], ∅) =
      some (processInterval envW cfgW net6 "EGYPT" LW ([], ∅)) := by
  have hcap : CHUNK_SIZE ≤ LW.length := by
    rw [LW, List.length_append, L1W, L2W, List.length_replicate,
        List.length_replicate]
    decide
  have hs1 : L1W.length < CHUNK_SIZE := by
    rw [L1W, List.length_replicate]; decide
  have hs2 : L2W.length < CHUNK_SIZE := by
    rw [L2W, List.length_replicate]; decide
  exact ⟨(C6_split_then_merge_is_identity envW cfgW net6 "EGYPT" T0W T2W
      LW L1W L2W rfl hcap rfl rfl hs1 hs2 rfl).1,
    (C6_split_then_merge_is_identity envW cfgW net6 "EGYPT" T0W T2W
      LW L1W L2W rfl hcap rfl rfl hs1 hs2 rfl).2 2⟩

end PiEtl
